import Mathlib

/-!
Shallow embedding of the progression engine of the `jbn_daily` repository
(`src/game.rs`: player/event/NPC state and operations; `src/main.rs`:
the application command layer `GameApp`).

Modelling conventions:
* `u32` fields are `Nat` and saturating arithmetic is made explicit with a
  bound of `2^32 - 1`; `i32` fields are `Int` with explicit saturating bounds
  `±2^31` where the source uses `saturating_add`.
* Uniform `f32` draws in `[0,1)` (`rand::random::<f32>()`) are modelled as
  rationals; the literal probability constants of the source become the
  corresponding exact rationals.
* Every call to the thread-local RNG becomes an explicit oracle argument:
  a `Nat` for an index draw (`x % n` models `random::<usize>() % n` and
  `gen_range`), a `List Nat` for a shuffle, a `ℚ` for a uniform draw.
* `SliceRandom::shuffle` (an external `rand` crate call) is modelled by its
  contract — an RNG-driven permutation of the slice — realised as a
  selection shuffle driven by the oracle's `List Nat` of draws.
-/

namespace JbnDaily

/-- `u32::saturating_add`, on `Nat` representations of `u32` values. -/
def u32SatAdd (a b : Nat) : Nat := min (a + b) (2 ^ 32 - 1)

/-- `i32::saturating_add`, on `Int` representations of `i32` values. -/
def i32SatAdd (a b : Int) : Int := max (-(2 ^ 31)) (min (a + b) (2 ^ 31 - 1))

/-- Rust `i32::clamp(0, 100)`. -/
def clamp0100 (x : Int) : Int := max 0 (min x 100)

/-- Model of `rand::seq::SliceRandom::shuffle`: the oracle supplies one `Nat`
draw per element; each step picks the element at `draw % length` and recurses
on the remainder (a selection shuffle, realising shuffle's contract of an
RNG-driven permutation). -/
def shuffleList {α : Type} : List Nat → List α → List α
  | [], l => l
  | _ :: _, [] => []
  | r :: rs, a :: t =>
      let l := a :: t
      let i := r % l.length
      l.get ⟨i, Nat.mod_lt _ (Nat.succ_pos _)⟩ :: shuffleList rs (l.eraseIdx i)

theorem cons_eraseIdx_perm {α : Type} (l : List α) (i : Nat) (h : i < l.length) :
    (l.get ⟨i, h⟩ :: l.eraseIdx i).Perm l := by
  induction l generalizing i with
  | nil => simp at h
  | cons a t ih =>
      cases i with
      | zero => simp [List.eraseIdx]
      | succ j =>
          have hj : j < t.length := by simpa using h
          have : ((a :: t).get ⟨j + 1, h⟩ :: (a :: t).eraseIdx (j + 1)) =
              (t.get ⟨j, hj⟩ :: a :: t.eraseIdx j) := by simp [List.eraseIdx]
          rw [this]
          exact (List.Perm.swap a (t.get ⟨j, hj⟩) (t.eraseIdx j)).trans
            ((ih j hj).cons a)

/-- The shuffle model always produces a permutation of its input. -/
theorem shuffleList_perm {α : Type} (rs : List Nat) (l : List α) :
    (shuffleList rs l).Perm l := by
  induction rs generalizing l with
  | nil => simp [shuffleList]
  | cons r rs ih =>
      cases l with
      | nil => simp [shuffleList]
      | cons a t =>
          simp only [shuffleList]
          exact ((ih _).cons _).trans (cons_eraseIdx_perm (a :: t) _ _)

/-! ### Realm (game.rs `Realm`) -/

/-- `Realm`: the five cultivation realms, derived from experience. -/
inductive Realm where
  | «凡人境»
  | «炼气期»
  | «筑基期»
  | «结丹期»
  | «化神期»
  deriving DecidableEq

/-- `Realm::from_experience` (experience is a `u32`, hence a `Nat`). -/
def Realm.from_experience (exp : Nat) : Realm :=
  if exp ≤ 50 then .«凡人境»
  else if exp ≤ 150 then .«炼气期»
  else if exp ≤ 300 then .«筑基期»
  else if exp ≤ 500 then .«结丹期»
  else .«化神期»

/-- `impl fmt::Display for Realm`. -/
def Realm.display : Realm → String
  | .«凡人境» => "凡人境"
  | .«炼气期» => "炼气期"
  | .«筑基期» => "筑基期"
  | .«结丹期» => "结丹期"
  | .«化神期» => "化神期"

/-! ### Options and events (game.rs `OptionInfo`, `DailyEvent`, `WeeklyEvent`) -/

/-- `OptionInfo`: reward tuple, display text, story, authored slot index. -/
structure OptionInfo where
  value : Int × Int
  desc : String
  story : String
  original_index : Nat
  deriving DecidableEq

/-- `DailyEvent`. -/
structure DailyEvent where
  id : Nat
  name : String
  description : String
  option_a : Int × Int
  option_a_desc : String
  option_b : Int × Int
  option_b_desc : String
  option_c : Int × Int
  option_c_desc : String
  shuffled_options : List OptionInfo
  deriving DecidableEq

/-- The authored option list `[A, B, C]` built inside
`DailyEvent::new_shuffled` before shuffling. -/
def authoredOptions (option_a : Int × Int) (option_a_desc option_a_story : String)
    (option_b : Int × Int) (option_b_desc option_b_story : String)
    (option_c : Int × Int) (option_c_desc option_c_story : String) : List OptionInfo :=
  [⟨option_a, option_a_desc, option_a_story, 0⟩,
   ⟨option_b, option_b_desc, option_b_story, 1⟩,
   ⟨option_c, option_c_desc, option_c_story, 2⟩]

/-- `DailyEvent::new_shuffled`; `rs` is the RNG oracle for the shuffle. -/
def DailyEvent.new_shuffled (id : Nat) (name description : String)
    (option_a : Int × Int) (option_a_desc option_a_story : String)
    (option_b : Int × Int) (option_b_desc option_b_story : String)
    (option_c : Int × Int) (option_c_desc option_c_story : String)
    (rs : List Nat) : DailyEvent :=
  { id, name, description,
    option_a, option_a_desc, option_b, option_b_desc, option_c, option_c_desc,
    shuffled_options := shuffleList rs
      (authoredOptions option_a option_a_desc option_a_story
        option_b option_b_desc option_b_story
        option_c option_c_desc option_c_story) }

/-- `DailyEvent::reshuffle`. -/
def DailyEvent.reshuffle (e : DailyEvent) (rs : List Nat) : DailyEvent :=
  { e with shuffled_options := shuffleList rs e.shuffled_options }

/-- `WeeklyEvent`. -/
structure WeeklyEvent where
  id : Nat
  name : String
  description : String
  option_a : Int × Int
  option_a_desc : String
  option_b : Int × Int
  option_b_desc : String
  option_c : Int × Int
  option_c_desc : String
  shuffled_options : List OptionInfo
  deriving DecidableEq

/-- `WeeklyEvent::new_shuffled`. -/
def WeeklyEvent.new_shuffled (id : Nat) (name description : String)
    (option_a : Int × Int) (option_a_desc option_a_story : String)
    (option_b : Int × Int) (option_b_desc option_b_story : String)
    (option_c : Int × Int) (option_c_desc option_c_story : String)
    (rs : List Nat) : WeeklyEvent :=
  { id, name, description,
    option_a, option_a_desc, option_b, option_b_desc, option_c, option_c_desc,
    shuffled_options := shuffleList rs
      (authoredOptions option_a option_a_desc option_a_story
        option_b option_b_desc option_b_story
        option_c option_c_desc option_c_story) }

/-- `WeeklyEvent::reshuffle`. -/
def WeeklyEvent.reshuffle (e : WeeklyEvent) (rs : List Nat) : WeeklyEvent :=
  { e with shuffled_options := shuffleList rs e.shuffled_options }

/-! ### Player state (game.rs `PlayerState`) -/

/-- `PlayerState`. `experience`, `days_played`, `realm_level`,
`promotion_attempts`, `zero_pressure_streak` are `u32` (here `Nat`);
`skills` and `pressure` are `i32` (here `Int`). -/
structure PlayerState where
  name : String
  experience : Nat
  skills : Int
  pressure : Int
  days_played : Nat
  is_alive : Bool
  realm_level : Nat
  promotion_attempts : Nat
  history : List String
  zero_pressure_streak : Nat
  died_from_zero_pressure : Bool
  deriving DecidableEq

/-- `PlayerState::new`. -/
def PlayerState.new (name : String) : PlayerState :=
  { name, experience := 0, skills := 0, pressure := 0, days_played := 0,
    is_alive := true, realm_level := 1, promotion_attempts := 0,
    history := [], zero_pressure_streak := 0, died_from_zero_pressure := false }

/-- `PlayerState::get_realm`. -/
def PlayerState.get_realm (p : PlayerState) : Realm :=
  Realm.from_experience p.experience

/-- `PlayerState::gain_reward`. The cast `skill_points as u32` is `Int.toNat`
(only reached when `skill_points > 0`, where the cast is value-preserving). -/
def PlayerState.gain_reward (p : PlayerState) (skill_points pressure_change : Int) :
    PlayerState :=
  { p with
    experience :=
      if skill_points > 0 then u32SatAdd p.experience skill_points.toNat
      else p.experience,
    skills := i32SatAdd p.skills skill_points,
    pressure := clamp0100 (p.pressure + pressure_change) }

/-- The death-chance step table of `PlayerState::check_death`
(the `match self.pressure` expression); the final `_` arm catches every
value outside `0..=100`, negatives included. -/
def deathChance (pressure : Int) : ℚ :=
  if 0 ≤ pressure ∧ pressure ≤ 19 then 0
  else if 20 ≤ pressure ∧ pressure ≤ 29 then 5 / 100
  else if 30 ≤ pressure ∧ pressure ≤ 49 then 8 / 100
  else if 50 ≤ pressure ∧ pressure ≤ 69 then 20 / 100
  else if 70 ≤ pressure ∧ pressure ≤ 100 then 40 / 100
  else 25 / 100

/-- `PlayerState::check_death`. `r1` models the uniform draw of the
zero-pressure check, `r2` the uniform draw of the stress-table check;
in the source each draw only happens in its own branch, so the model
simply ignores the parameter on the other branches. -/
def PlayerState.check_death (p : PlayerState) (r1 r2 : ℚ) : PlayerState :=
  let p0 := { p with died_from_zero_pressure := false }
  let p1 :=
    if p0.pressure = 0 then
      { p0 with zero_pressure_streak := u32SatAdd p0.zero_pressure_streak 1 }
    else
      { p0 with zero_pressure_streak := 0 }
  if p1.zero_pressure_streak ≥ 2 ∧ r1 < 15 / 100 then
    { p1 with is_alive := false, died_from_zero_pressure := true }
  else if p1.skills < 0 then
    { p1 with is_alive := false }
  else if r2 < deathChance p1.pressure then
    { p1 with is_alive := false }
  else
    p1

/-- `PlayerState::can_promote`. -/
def PlayerState.can_promote (p : PlayerState) : Bool :=
  let skill_requirement : Int :=
    match p.realm_level with
    | 1 => 50
    | 2 => 150
    | 3 => 300
    | 4 => 500
    | _ => 9999
  p.skills ≥ skill_requirement

/-- The failure rate computed at the top of `PlayerState::attempt_promotion`:
`(0.05 * (promotion_attempts + 1)).min(0.95)`. -/
def promoFailureRate (promotion_attempts : Nat) : ℚ :=
  min (5 / 100 * (promotion_attempts + 1)) (95 / 100)

/-- `PlayerState::attempt_promotion`; `r` models the uniform draw. Rust's
`i32` division truncates toward zero, hence `Int.tdiv`. Returns the updated
player together with the `(bool, String)` result of the source. -/
def PlayerState.attempt_promotion (p : PlayerState) (r : ℚ) :
    PlayerState × Bool × String :=
  let failure_rate := promoFailureRate p.promotion_attempts
  if r < failure_rate then
    let lost_skills := Int.tdiv p.skills 2
    ({ p with skills := p.skills - lost_skills,
              promotion_attempts := p.promotion_attempts + 1 },
     false,
     "小垃圾 根本没有这个水平还想晋升\n失去了" ++ toString lost_skills ++ "技能点")
  else
    let p2 := { p with realm_level := p.realm_level + 1, promotion_attempts := 0 }
    (p2, true, "恭喜晋升到" ++ (p2.get_realm).display ++ "阶！")

/-- The signed-delta rendering used by `PlayerState::add_history`
(`format!("+{}", v)` for `v >= 0`, plain `to_string` otherwise). -/
def signedDelta (v : Int) : String :=
  if v ≥ 0 then "+" ++ toString v else toString v

/-- The history line pushed by `PlayerState::add_history`:
`format!("第{}天: {} [技能{}|压力{}]", days_played + 1, record, ..)`. -/
def histLine (days_played : Nat) (record : String)
    (skill_change pressure_change : Int) : String :=
  "第" ++ toString (days_played + 1) ++ "天: " ++ record ++
    " [技能" ++ signedDelta skill_change ++ "|压力" ++ signedDelta pressure_change ++ "]"

/-- `PlayerState::add_history`: push the formatted line, then
`history.remove(0)` once the length exceeds 100. -/
def PlayerState.add_history (p : PlayerState) (record : String)
    (skill_change pressure_change : Int) : PlayerState :=
  { p with history :=
      if (p.history ++ [histLine p.days_played record skill_change pressure_change]).length > 100
      then (p.history ++ [histLine p.days_played record skill_change pressure_change]).tail
      else p.history ++ [histLine p.days_played record skill_change pressure_change] }

/-- `PlayerState::get_death_message`. -/
def PlayerState.get_death_message (p : PlayerState) : String :=
  if p.died_from_zero_pressure then
    "你这样子天天都没有压力，跟咸鱼有什么分别？？？？"
  else if p.skills < 0 then
    "你小子被开除了，一个技能点都没有还他妈都来应聘，啥也不会"
  else if 20 ≤ p.pressure ∧ p.pressure ≤ 29 then "脆弱的弟弟，这就死了"
  else if 30 ≤ p.pressure ∧ p.pressure ≤ 49 then "啊？就这就累死了？还差得远呢，投胎去吧"
  else if 50 ≤ p.pressure ∧ p.pressure ≤ 69 then "辛苦了，但是还不够努力，死的太慢了呢"
  else if 70 ≤ p.pressure ∧ p.pressure ≤ 100 then "该你去死了啊，这么卷不要命了啊"
  else "游戏结束"

/-! ### NPC encounters (game.rs `NpcEncounter` and friends) -/

/-- `NpcOption`. -/
structure NpcOption where
  summary : String
  detail : String
  reward : Int × Int
  deriving DecidableEq

/-- `NpcEncounter`. -/
structure NpcEncounter where
  name : String
  description : String
  ai_model : String
  prompt_templates : List String
  accept_option : NpcOption
  reject_option : NpcOption
  interacted : Bool
  deriving DecidableEq

/-- `NpcActiveEvent`. -/
structure NpcActiveEvent where
  npc_index : Nat
  prompt : String
  deriving DecidableEq

/-- `NpcDecision`. -/
inductive NpcDecision where
  | Accept
  | Reject
  deriving DecidableEq

/-- `NpcEncounter::random_dialogue`: `SliceRandom::choose` picks a uniformly
random element (modelled by the oracle draw `r` taken mod the length),
returning the base description when the template list is empty. -/
def NpcEncounter.random_dialogue (npc : NpcEncounter) (r : Nat) : String :=
  match npc.prompt_templates.get? (r % npc.prompt_templates.length) with
  | some s => s
  | none => npc.description

/-! ### Game state (game.rs `GameState`) -/

/-- `GameState`. The `start_time : Instant` field of the source (wall-clock
session time) has no shallow embedding and no claim mentions it; it is the
only omitted field. -/
structure GameState where
  player : PlayerState
  current_day : Nat
  current_week : Nat
  daily_events : List DailyEvent
  weekly_events : List WeeklyEvent
  today_event : DailyEvent
  today_weekly_event : Option WeeklyEvent
  event_chosen_today : Bool
  weekly_event_chosen_today : Bool
  npc_master : List NpcEncounter
  today_npcs : List NpcEncounter
  npc_interaction_message : String
  npc_active_event : Option NpcActiveEvent
  deriving DecidableEq

/-- `GameState::refresh_today_npcs`: clone-and-shuffle the master roster
(`rs` drives the shuffle), take `1 + rt % max_take` of it (`gen_range(1..=max_take)`,
0 when the roster is empty), reset `interacted`, clear message and active
event. -/
def GameState.refresh_today_npcs (g : GameState) (rs : List Nat) (rt : Nat) :
    GameState :=
  let pool := shuffleList rs g.npc_master
  let max_take := min pool.length 3
  let take := if max_take = 0 then 0 else 1 + rt % max_take
  { g with
    today_npcs := (pool.take take).map (fun npc => { npc with interacted := false }),
    npc_interaction_message := "",
    npc_active_event := none }

/-- `GameState::trigger_npc_event`; `rd` is the oracle draw for
`random_dialogue`. Returns the updated state plus the source's
`Option<String>` result. -/
def GameState.trigger_npc_event (g : GameState) (index : Nat) (rd : Nat) :
    GameState × Option String :=
  if !g.player.is_alive then
    let msg := "你已离开公司，无法继续和 NPC 交互。"
    ({ g with npc_active_event := none, npc_interaction_message := msg }, some msg)
  else
    match g.today_npcs.get? index with
    | none => (g, none)
    | some npc =>
      if npc.interacted then
        let msg := npc.name ++ " 今天的请求已经处理完。"
        ({ g with npc_interaction_message := msg, npc_active_event := none }, some msg)
      else
        let dialogue := npc.random_dialogue rd
        let msg := npc.name ++ " · " ++ npc.ai_model ++ "：" ++ dialogue ++
          "\n\n同意：" ++ npc.accept_option.summary ++
          "\n拒绝：" ++ npc.reject_option.summary
        ({ g with
            npc_active_event := some { npc_index := index, prompt := dialogue },
            npc_interaction_message := msg },
         some msg)

/-- The `("同意", accept) / ("拒绝", reject)` label of the decision match in
`resolve_active_npc_event`. -/
def npcChoiceLabel : NpcDecision → String
  | .Accept => "同意"
  | .Reject => "拒绝"

/-- The option selected by the decision match in `resolve_active_npc_event`. -/
def npcChosenOption (npc : NpcEncounter) : NpcDecision → NpcOption
  | .Accept => npc.accept_option
  | .Reject => npc.reject_option

/-- `GameState::resolve_active_npc_event`. -/
def GameState.resolve_active_npc_event (g : GameState) (decision : NpcDecision) :
    GameState × Option String :=
  if !g.player.is_alive then
    let msg := "你已离开公司，无法继续和 NPC 交互。"
    ({ g with npc_active_event := none, npc_interaction_message := msg }, some msg)
  else
    match g.npc_active_event with
    | none => (g, none)
    | some active =>
      match g.today_npcs.get? active.npc_index with
      | none => (g, none)
      | some npc =>
        if npc.interacted then
          let msg := npc.name ++ " 今天已经结束沟通。"
          ({ g with npc_active_event := none, npc_interaction_message := msg }, some msg)
        else
          let choice_label := npcChoiceLabel decision
          let option := npcChosenOption npc decision
          let skill := option.reward.1
          let pressure := option.reward.2
          let player1 := g.player.gain_reward skill pressure
          let player2 := player1.add_history
            ("【NPC】" ++ npc.name ++ " - " ++ option.detail ++ " (" ++ choice_label ++ ")")
            skill pressure
          let msg := npc.name ++ "：" ++ option.summary ++
            " | 技能" ++ signedDelta skill ++ " | 压力" ++ signedDelta pressure
          ({ g with
              today_npcs := g.today_npcs.set active.npc_index
                { npc with interacted := true },
              player := player2,
              npc_interaction_message := msg,
              npc_active_event := none },
           some msg)

/-- The per-call RNG oracle for `GameState::next_day` (and for the
`GameState::refresh_today_npcs` call it ends with). -/
structure DayOracle where
  dailyIdx : Nat
  dailyShuffle : List Nat
  weeklyIdx : Nat
  weeklyShuffle : List Nat
  npcShuffle : List Nat
  npcTake : Nat

/-- `GameState::next_day`. The source indexes `daily_events[idx]` and
`weekly_events[weekly_idx]` with `random::<usize>() % len` (a panic on an
empty catalog, which `GameState::new` makes impossible); the model uses
`getD`/`get?` with the empty-catalog case falling back to the current
event (daily) or `none` (weekly) — theorems carry non-empty-catalog
hypotheses so the fallback is never relied on. -/
def GameState.next_day (g : GameState) (o : DayOracle) : GameState :=
  let day := g.current_day + 1
  let g1 := { g with
    current_day := day,
    player := { g.player with days_played := g.player.days_played + 1 },
    event_chosen_today := false,
    weekly_event_chosen_today := false }
  let g2 := if day % 7 = 0 then { g1 with current_week := g1.current_week + 1 } else g1
  let idx := o.dailyIdx % g2.daily_events.length
  let g3 := { g2 with
    today_event := ((g2.daily_events.getD idx g2.today_event).reshuffle o.dailyShuffle) }
  let g4 :=
    if day % 7 = 0 then
      let weekly_idx := o.weeklyIdx % g3.weekly_events.length
      match g3.weekly_events.get? weekly_idx with
      | some w => { g3 with today_weekly_event := some (w.reshuffle o.weeklyShuffle) }
      | none => { g3 with today_weekly_event := none }
    else
      { g3 with today_weekly_event := none }
  g4.refresh_today_npcs o.npcShuffle o.npcTake

/-! ### Application command layer (main.rs `GamePhase`, `GameApp`) -/

/-- `GamePhase`. -/
inductive GamePhase where
  | Start
  | EventDisplay
  | WeeklyEventDisplay
  | PromotionConfirm
  | GameOver
  deriving DecidableEq

/-- `GameApp`. -/
structure GameApp where
  phase : GamePhase
  game_state : Option GameState
  player_name : String
  result_message : String
  deriving DecidableEq

/-- `GameApp::apply_choice`. `choice` is a `u8`; the source computes
`choice.saturating_sub(1) as usize`, which on the `Nat` model is plain
(truncated) subtraction `choice - 1`. -/
def GameApp.apply_choice (app : GameApp) (choice : Nat) : GameApp :=
  match app.game_state with
  | none => app
  | some game =>
    match app.phase with
    | .EventDisplay =>
      if game.event_chosen_today then
        { app with result_message := "今天已经选择过了！\n按 \"进入下一天\" 继续" }
      else
        let daily_event := game.today_event
        let idx := choice - 1
        match daily_event.shuffled_options.get? idx with
        | none => app
        | some option =>
          let skill_reward := option.value.1
          let pressure_change := option.value.2
          let story := option.story
          let choice_text := ((option.desc.splitOn "\n").headD "")
          let player1 := game.player.gain_reward skill_reward pressure_change
          let player2 := player1.add_history
            (daily_event.name ++ " - " ++ choice_text ++ "\n💬 " ++ story)
            skill_reward pressure_change
          let game2 := { game with player := player2, event_chosen_today := true }
          match game2.today_weekly_event with
          | some weekly =>
            { app with
              game_state := some game2,
              phase := .WeeklyEventDisplay,
              result_message := "📖 " ++ story ++ "\n\n⚠️ 周事件触发：" ++ weekly.name }
          | none =>
            { app with
              game_state := some game2,
              result_message := "📖 " ++ story ++ "\n\n点击 \"进入下一天\" 继续" }
    | .WeeklyEventDisplay =>
      if game.weekly_event_chosen_today then
        { app with result_message := "本周事件已完成！\n点击 \"进入下一天\" 继续" }
      else
        match game.today_weekly_event with
        | none => app
        | some weekly =>
          let idx := choice - 1
          match weekly.shuffled_options.get? idx with
          | none => app
          | some option =>
            let skill_reward := option.value.1
            let pressure_change := option.value.2
            let story := option.story
            let choice_text := ((option.desc.splitOn "\n").headD "")
            let player1 := game.player.gain_reward skill_reward pressure_change
            let player2 := player1.add_history
              ("【周事件】" ++ weekly.name ++ " - " ++ choice_text ++ "\n💬 " ++ story)
              skill_reward pressure_change
            let game2 := { game with
              player := player2,
              weekly_event_chosen_today := true,
              today_weekly_event := none }
            { app with
              game_state := some game2,
              phase := .EventDisplay,
              result_message := "📖 " ++ story ++ "\n\n周事件完成！点击 \"进入下一天\" 继续" }
    | _ => app

/-- `GameApp::promote_yes`; `r` is the promotion-roll draw, `o` the oracle
of the `next_day` performed on success. -/
def GameApp.promote_yes (app : GameApp) (r : ℚ) (o : DayOracle) : GameApp :=
  match app.game_state with
  | none => app
  | some game =>
    let res := game.player.attempt_promotion r
    let game2 := { game with player := res.1 }
    let success := res.2.1
    let msg := res.2.2
    if success then
      { app with
        game_state := some (game2.next_day o),
        phase := .EventDisplay,
        result_message := msg }
    else
      { app with
        game_state := some game2,
        result_message := msg ++ "\n\n点击 \"进入下一天\" 继续努力" }

/-- `GameApp::promote_no`; `o` is the oracle of the unconditional `next_day`. -/
def GameApp.promote_no (app : GameApp) (o : DayOracle) : GameApp :=
  match app.game_state with
  | none => app
  | some game =>
    { app with
      game_state := some (game.next_day o),
      phase := .EventDisplay,
      result_message := "" }

/-! ### Iteration helpers for sequence claims -/

/-- Fold a sequence of `gain_reward` calls over a player. -/
def runGains (p : PlayerState) (ds : List (Int × Int)) : PlayerState :=
  ds.foldl (fun q d => q.gain_reward d.1 d.2) p

/-- The sum of the strictly positive skill deltas of a sequence
(a non-positive delta contributes 0 via `Int.toNat`). -/
def posSum (ds : List (Int × Int)) : Nat :=
  (ds.map (fun d => d.1.toNat)).sum

/-- Fold a sequence of `add_history` calls over a player. -/
def runHistory (p : PlayerState) (cmds : List (String × Int × Int)) : PlayerState :=
  cmds.foldl (fun q c => q.add_history c.1 c.2.1 c.2.2) p

/-- The zero-pressure streak value that `check_death` stores before its
branching: incremented (saturating) when pressure is 0, reset otherwise. -/
def streakAfter (p : PlayerState) : Nat :=
  if p.pressure = 0 then u32SatAdd p.zero_pressure_streak 1 else 0

/-! ### Theorems -/

/-- `check_death` rewritten as a single branch over the updated streak. -/
theorem check_death_eq (p : PlayerState) (r1 r2 : ℚ) :
    p.check_death r1 r2 =
      (if streakAfter p ≥ 2 ∧ r1 < 15 / 100 then
        { p with zero_pressure_streak := streakAfter p,
                 is_alive := false, died_from_zero_pressure := true }
      else if p.skills < 0 then
        { p with zero_pressure_streak := streakAfter p,
                 is_alive := false, died_from_zero_pressure := false }
      else if r2 < deathChance p.pressure then
        { p with zero_pressure_streak := streakAfter p,
                 is_alive := false, died_from_zero_pressure := false }
      else
        { p with zero_pressure_streak := streakAfter p,
                 died_from_zero_pressure := false }) := by
  unfold PlayerState.check_death streakAfter
  by_cases h : p.pressure = 0 <;> simp [h]

/-- C1: `check_death` proceeds in a fixed order: it resets
`died_from_zero_pressure`, then updates the zero-pressure streak
(increment on stress 0, reset otherwise); if the streak is ≥ 2 and the
uniform draw is below 0.15 it kills with `died_from_zero_pressure = true`
and returns without consulting the later checks (the result is independent
of the second draw); otherwise, if skill is negative it kills
deterministically; otherwise it kills exactly when the second draw is
below the stress step table value ([0,19]→0, [20,29]→5%, [30,49]→8%,
[50,69]→20%, [70,100]→40%, anything else→25%). In particular a player with
negative skill for whom the zero-stress branch did not fire is not alive
afterwards. -/
theorem check_death_follows_fixed_order (p : PlayerState) (r1 r2 : ℚ) :
    ((p.check_death r1 r2).zero_pressure_streak = streakAfter p) ∧
    (streakAfter p ≥ 2 ∧ r1 < 15 / 100 →
      (p.check_death r1 r2).is_alive = false ∧
      (p.check_death r1 r2).died_from_zero_pressure = true ∧
      (p.check_death r1 r2).skills = p.skills ∧
      ∀ r2' : ℚ, p.check_death r1 r2' = p.check_death r1 r2) ∧
    (¬ (streakAfter p ≥ 2 ∧ r1 < 15 / 100) →
      (p.check_death r1 r2).died_from_zero_pressure = false ∧
      (p.skills < 0 →
        (p.check_death r1 r2).is_alive = false ∧
        ∀ r2' : ℚ, p.check_death r1 r2' = p.check_death r1 r2) ∧
      (0 ≤ p.skills →
        (p.check_death r1 r2).is_alive =
          (if r2 < deathChance p.pressure then false else p.is_alive))) ∧
    (∀ x : Int,
      (0 ≤ x ∧ x ≤ 19 → deathChance x = 0) ∧
      (20 ≤ x ∧ x ≤ 29 → deathChance x = 5 / 100) ∧
      (30 ≤ x ∧ x ≤ 49 → deathChance x = 8 / 100) ∧
      (50 ≤ x ∧ x ≤ 69 → deathChance x = 20 / 100) ∧
      (70 ≤ x ∧ x ≤ 100 → deathChance x = 40 / 100) ∧
      (x < 0 ∨ 100 < x → deathChance x = 25 / 100)) := by
  refine ⟨?_, ?_, ?_, ?_⟩
  · rw [check_death_eq]; split_ifs <;> rfl
  · intro h
    rw [check_death_eq, if_pos h]
    refine ⟨rfl, rfl, rfl, fun r2' => ?_⟩
    rw [check_death_eq, if_pos h]
  · intro h
    refine ⟨?_, ?_, ?_⟩
    · rw [check_death_eq, if_neg h]; split_ifs <;> rfl
    · intro hs
      rw [check_death_eq, if_neg h, if_pos hs]
      exact ⟨rfl, fun r2' => by rw [check_death_eq, if_neg h, if_pos hs]⟩
    · intro hs
      have hs' : ¬ p.skills < 0 := not_lt.2 hs
      rw [check_death_eq, if_neg h, if_neg hs']
      split_ifs <;> rfl
  · intro x
    unfold deathChance
    refine ⟨?_, ?_, ?_, ?_, ?_, ?_⟩ <;> intro hx <;> split_ifs <;>
      first | rfl | omega

/-- Witness fixture: pressure 0, streak about to reach 2, positive skill. -/
def pZeroStreak : PlayerState :=
  { PlayerState.new "w" with pressure := 0, zero_pressure_streak := 1, skills := 5 }

/-- Witness fixture: negative skill, nonzero pressure. -/
def pInsolvent : PlayerState :=
  { PlayerState.new "w" with pressure := 50, skills := -1 }

/-- Witness fixture: non-negative skill, pressure 50 (20% death band). -/
def pStressed : PlayerState :=
  { PlayerState.new "w" with pressure := 50, skills := 0 }

theorem check_death_follows_fixed_order_witness :
    ((pZeroStreak.check_death (1 / 10) 0).is_alive = false ∧
      (pZeroStreak.check_death (1 / 10) 0).died_from_zero_pressure = true) ∧
    (pInsolvent.check_death (1 / 2) (1 / 2)).is_alive = false ∧
    (pStressed.check_death (1 / 2) (1 / 10)).is_alive = false := by
  refine ⟨?_, ?_, ?_⟩
  · have h := (check_death_follows_fixed_order pZeroStreak (1 / 10) 0).2.1
      (by constructor
          · show streakAfter pZeroStreak ≥ 2
            unfold streakAfter pZeroStreak u32SatAdd PlayerState.new
            norm_num
          · norm_num)
    exact ⟨h.1, h.2.1⟩
  · have hni : ¬ (streakAfter pInsolvent ≥ 2 ∧ (1 / 2 : ℚ) < 15 / 100) := by
      intro hc
      exact absurd hc.2 (by norm_num)
    have h := ((check_death_follows_fixed_order pInsolvent (1 / 2) (1 / 2)).2.2.1 hni).2.1
      (by unfold pInsolvent PlayerState.new; norm_num)
    exact h.1
  · have hni : ¬ (streakAfter pStressed ≥ 2 ∧ (1 / 2 : ℚ) < 15 / 100) := by
      intro hc
      exact absurd hc.2 (by norm_num)
    have h := ((check_death_follows_fixed_order pStressed (1 / 2) (1 / 10)).2.2.1 hni).2.2
      (by unfold pStressed PlayerState.new; norm_num)
    rw [h]
    have hdc : deathChance pStressed.pressure = 20 / 100 := by
      unfold deathChance pStressed PlayerState.new
      norm_num
    rw [hdc, if_pos (by norm_num)]

/-- One `gain_reward` call keeps experience within the `u32` range and never
decreases it. -/
theorem gain_reward_experience_step (p : PlayerState) (d s : Int)
    (hexp : p.experience ≤ 2 ^ 32 - 1) :
    p.experience ≤ (p.gain_reward d s).experience ∧
    (p.gain_reward d s).experience ≤ 2 ^ 32 - 1 := by
  unfold PlayerState.gain_reward u32SatAdd
  split_ifs <;> simp <;> omega

/-- Experience is monotone under any sequence of `gain_reward` calls. -/
theorem runGains_experience_mono (ds : List (Int × Int)) (p : PlayerState)
    (hexp : p.experience ≤ 2 ^ 32 - 1) :
    p.experience ≤ (runGains p ds).experience := by
  induction ds generalizing p with
  | nil => simp [runGains]
  | cons d ds ih =>
      have hstep := gain_reward_experience_step p d.1 d.2 hexp
      have : runGains p (d :: ds) = runGains (p.gain_reward d.1 d.2) ds := rfl
      rw [this]
      exact le_trans hstep.1 (ih _ hstep.2)

/-- When the total of the positive deltas stays within the `u32` range,
experience grows by exactly that total. -/
theorem runGains_experience_exact (ds : List (Int × Int)) (p : PlayerState)
    (h : p.experience + posSum ds ≤ 2 ^ 32 - 1) :
    (runGains p ds).experience = p.experience + posSum ds := by
  induction ds generalizing p with
  | nil => simp [runGains, posSum]
  | cons d ds ih =>
      have hsum : posSum (d :: ds) = d.1.toNat + posSum ds := by
        simp [posSum]
      have hstep : (p.gain_reward d.1 d.2).experience = p.experience + d.1.toNat := by
        unfold PlayerState.gain_reward u32SatAdd
        split_ifs with hd
        · simp only
          rw [hsum] at h
          omega
        · simp only
          have : d.1.toNat = 0 := Int.toNat_of_nonpos (le_of_not_lt hd)
          omega
      have hrun : runGains p (d :: ds) = runGains (p.gain_reward d.1 d.2) ds := rfl
      rw [hrun, ih _ (by rw [hstep]; rw [hsum] at h; omega), hstep, hsum]
      ring

/-- C3 (amended): `gain_reward` adds the skill delta to skill saturating at
the `i32` bounds, adds the delta to experience saturating at the `u32`
bound exactly when the delta is strictly positive, and clamps
stress + delta to [0,100]. Across any sequence of calls experience is
monotone non-decreasing, and it grows by exactly the sum of the strictly
positive skill deltas whenever that sum does not overflow the `u32` bound
(the original claim's unconditional "grows exactly by the sum" fails at
the saturation bound, see the counterexample). -/
theorem gain_reward_saturating (p : PlayerState) (d s : Int)
    (ds : List (Int × Int)) (hexp : p.experience ≤ 2 ^ 32 - 1) :
    ((p.gain_reward d s).skills = max (-(2 ^ 31)) (min (p.skills + d) (2 ^ 31 - 1))) ∧
    ((p.gain_reward d s).pressure = max 0 (min (p.pressure + s) 100)) ∧
    ((p.gain_reward d s).experience =
      (if 0 < d then min (p.experience + d.toNat) (2 ^ 32 - 1) else p.experience)) ∧
    (p.experience ≤ (p.gain_reward d s).experience) ∧
    (p.experience ≤ (runGains p ds).experience) ∧
    (p.experience + posSum ds ≤ 2 ^ 32 - 1 →
      (runGains p ds).experience = p.experience + posSum ds) := by
  refine ⟨rfl, rfl, rfl, (gain_reward_experience_step p d s hexp).1,
    runGains_experience_mono ds p hexp, runGains_experience_exact ds p⟩

theorem gain_reward_saturating_witness :
    (PlayerState.new "w").experience ≤ 2 ^ 32 - 1 ∧
    (PlayerState.new "w").experience + posSum [(3, 1), (-2, 0), (4, -1)] ≤ 2 ^ 32 - 1 ∧
    (runGains (PlayerState.new "w") [(3, 1), (-2, 0), (4, -1)]).experience = 7 := by
  have h := gain_reward_saturating (PlayerState.new "w") 1 1 [(3, 1), (-2, 0), (4, -1)]
    (by norm_num [PlayerState.new])
  refine ⟨by norm_num [PlayerState.new], by decide, ?_⟩
  have he := h.2.2.2.2.2 (by decide)
  rw [he]
  decide

/-- C3 counterexample: three `gain_reward` calls from a fresh player whose
positive deltas sum to 2^32 leave experience at the saturated value
2^32 - 1, so experience did not grow by exactly the sum of the strictly
positive deltas. -/
theorem gain_reward_exact_sum_counterexample :
    ((((PlayerState.new "x").gain_reward (2 ^ 31 - 1) 0).gain_reward
        (2 ^ 31 - 1) 0).gain_reward 2 0).experience = 2 ^ 32 - 1 ∧
    (PlayerState.new "x").experience = 0 ∧
    posSum [((2 : Int) ^ 31 - 1, (0 : Int)), (2 ^ 31 - 1, 0), (2, 0)] = 2 ^ 32 := by
  refine ⟨?_, rfl, by decide⟩
  decide

/-- C8: on a failed promotion roll (`r` below the failure rate) the player
loses `skills / 2` (truncating integer division), keeps the realm level,
gets `promotion_attempts` incremented, and the call reports failure with
the lost amount; on a successful roll the realm level is incremented,
`promotion_attempts` resets to 0, skills are untouched, and the call
reports success with the display name of the resulting player's realm. -/
theorem attempt_promotion_branches (p : PlayerState) (r : ℚ) :
    (r < promoFailureRate p.promotion_attempts →
      (p.attempt_promotion r).1.skills = p.skills - Int.tdiv p.skills 2 ∧
      (p.attempt_promotion r).1.promotion_attempts = p.promotion_attempts + 1 ∧
      (p.attempt_promotion r).1.realm_level = p.realm_level ∧
      (p.attempt_promotion r).2.1 = false ∧
      (p.attempt_promotion r).2.2 =
        "小垃圾 根本没有这个水平还想晋升\n失去了" ++ toString (Int.tdiv p.skills 2) ++ "技能点") ∧
    (¬ r < promoFailureRate p.promotion_attempts →
      (p.attempt_promotion r).1.realm_level = p.realm_level + 1 ∧
      (p.attempt_promotion r).1.promotion_attempts = 0 ∧
      (p.attempt_promotion r).1.skills = p.skills ∧
      (p.attempt_promotion r).2.1 = true ∧
      (p.attempt_promotion r).2.2 =
        "恭喜晋升到" ++ ((p.attempt_promotion r).1.get_realm).display ++ "阶！") := by
  constructor
  · intro h
    unfold PlayerState.attempt_promotion
    rw [if_pos h]
    exact ⟨rfl, rfl, rfl, rfl, rfl⟩
  · intro h
    unfold PlayerState.attempt_promotion
    rw [if_neg h]
    exact ⟨rfl, rfl, rfl, rfl, rfl⟩

/-- Witness fixture: a player ready for a promotion attempt. -/
def pPromo : PlayerState :=
  { PlayerState.new "w" with skills := 60, promotion_attempts := 0 }

theorem attempt_promotion_branches_witness :
    ((pPromo.attempt_promotion (1 / 100)).1.skills = 30 ∧
      (pPromo.attempt_promotion (1 / 100)).1.promotion_attempts = 1 ∧
      (pPromo.attempt_promotion (1 / 100)).2.1 = false) ∧
    ((pPromo.attempt_promotion (1 / 2)).1.realm_level = 2 ∧
      (pPromo.attempt_promotion (1 / 2)).1.promotion_attempts = 0 ∧
      (pPromo.attempt_promotion (1 / 2)).2.1 = true) := by
  constructor
  · have h := (attempt_promotion_branches pPromo (1 / 100)).1
      (by unfold pPromo PlayerState.new promoFailureRate; norm_num)
    refine ⟨?_, h.2.1, h.2.2.2.1⟩
    rw [h.1]
    decide
  · have h := (attempt_promotion_branches pPromo (1 / 2)).2
      (by unfold pPromo PlayerState.new promoFailureRate; norm_num)
    have hr : pPromo.realm_level = 1 := rfl
    exact ⟨by rw [h.1, hr], h.2.1, h.2.2.2.1⟩

/-- C9: the promotion failure rate is `min(0.95, 0.05 * (attempts + 1))`:
exactly 5% at 0 attempts, strictly increasing below the cap, and exactly
95% for every attempt count ≥ 18. -/
theorem promoFailureRate_spec :
    promoFailureRate 0 = 1 / 20 ∧
    (∀ k : Nat, promoFailureRate k = min (95 / 100 : ℚ) (5 / 100 * ((k : ℚ) + 1))) ∧
    (∀ k : Nat, k < 18 → promoFailureRate k < promoFailureRate (k + 1)) ∧
    (∀ k : Nat, 18 ≤ k → promoFailureRate k = 19 / 20) := by
  refine ⟨by norm_num [promoFailureRate], fun k => min_comm _ _, ?_, ?_⟩
  · intro k hk
    have hkq : (k : ℚ) ≤ 17 := by exact_mod_cast Nat.lt_succ_iff.1 hk
    unfold promoFailureRate
    rw [min_eq_left (by nlinarith), min_eq_left (by push_cast; nlinarith)]
    push_cast
    nlinarith
  · intro k hk
    have hkq : (18 : ℚ) ≤ (k : ℚ) := by exact_mod_cast hk
    unfold promoFailureRate
    rw [min_eq_right (by nlinarith)]
    norm_num

theorem promoFailureRate_spec_witness :
    promoFailureRate 5 < promoFailureRate 6 ∧ promoFailureRate 18 = 19 / 20 := by
  exact ⟨promoFailureRate_spec.2.2.1 5 (by norm_num),
    promoFailureRate_spec.2.2.2 18 (by norm_num)⟩

theorem add_history_days_played (p : PlayerState) (record : String) (a b : Int) :
    (p.add_history record a b).days_played = p.days_played := rfl

/-- General shape of the history after a sequence of `add_history` calls:
the old history followed by the formatted lines, with just enough entries
dropped from the front to keep at most 100. -/
theorem runHistory_history_eq (cmds : List (String × Int × Int)) (p : PlayerState)
    (h : p.history.length ≤ 100) :
    (runHistory p cmds).history =
      (p.history ++ cmds.map (fun c => histLine p.days_played c.1 c.2.1 c.2.2)).drop
        (p.history.length + cmds.length - 100) := by
  induction cmds generalizing p with
  | nil =>
      simp only [runHistory, List.foldl_nil, List.map_nil, List.append_nil,
        List.length_nil, Nat.add_zero]
      rw [Nat.sub_eq_zero_of_le h, List.drop_zero]
  | cons c cs ih =>
      have hrun : runHistory p (c :: cs) =
          runHistory (p.add_history c.1 c.2.1 c.2.2) cs := rfl
      have hdp : (p.add_history c.1 c.2.1 c.2.2).days_played = p.days_played := rfl
      rcases Nat.lt_or_ge p.history.length 100 with hlt | hge
      · have hhist : (p.add_history c.1 c.2.1 c.2.2).history =
            p.history ++ [histLine p.days_played c.1 c.2.1 c.2.2] := by
          unfold PlayerState.add_history
          simp only
          rw [if_neg (by simp only [List.length_append, List.length_singleton]; omega)]
        have hlen : (p.add_history c.1 c.2.1 c.2.2).history.length ≤ 100 := by
          rw [hhist]
          simp only [List.length_append, List.length_singleton]
          omega
        rw [hrun, ih _ hlen, hhist, hdp]
        have e1 : (p.history ++ [histLine p.days_played c.1 c.2.1 c.2.2]).length
            + cs.length - 100 = p.history.length + (c :: cs).length - 100 := by
          simp only [List.length_append, List.length_singleton, List.length_cons,
            List.length_nil]
          omega
        rw [e1, List.map_cons, List.append_assoc, List.singleton_append]
      · have h100 : p.history.length = 100 := le_antisymm h hge
        have hhist : (p.add_history c.1 c.2.1 c.2.2).history =
            (p.history ++ [histLine p.days_played c.1 c.2.1 c.2.2]).tail := by
          unfold PlayerState.add_history
          simp only
          rw [if_pos (by simp only [List.length_append, List.length_singleton]; omega)]
        cases hph : p.history with
        | nil => rw [hph] at h100; simp at h100
        | cons hd tl =>
            have htl99 : tl.length = 99 := by
              rw [hph] at h100
              simpa using h100
            have htail : (p.history ++ [histLine p.days_played c.1 c.2.1 c.2.2]).tail =
                tl ++ [histLine p.days_played c.1 c.2.1 c.2.2] := by
              rw [hph]; rfl
            have hlen : (p.add_history c.1 c.2.1 c.2.2).history.length ≤ 100 := by
              rw [hhist, htail]
              simp only [List.length_append, List.length_singleton]
              omega
            rw [hrun, ih _ hlen, hhist, htail, hdp]
            have e1 : (tl ++ [histLine p.days_played c.1 c.2.1 c.2.2]).length
                + cs.length - 100 = cs.length := by
              simp only [List.length_append, List.length_singleton, List.length_nil]
              omega
            have e2 : (hd :: tl).length + (c :: cs).length - 100 = cs.length + 1 := by
              simp only [List.length_cons]
              omega
            rw [e1, e2, List.map_cons]
            rw [List.cons_append, List.drop_succ_cons, List.append_assoc,
              List.singleton_append]

/-- C6: `add_history` appends one line tagged with the pre-increment day
number (`days_played + 1`, inside `histLine`) and signed deltas; the log
stays at ≤ 100 entries once it is ≤ 100, the append is at the back, the
eviction (when the pushed length exceeds 100) removes the front entry, and
101 appends from an empty log leave exactly the last 100 lines in their
original order (the first line is gone). -/
theorem add_history_bounded (p : PlayerState) (record : String) (a b : Int) :
    (p.history.length ≤ 100 → (p.add_history record a b).history.length ≤ 100) ∧
    ((p.add_history record a b).history.getLast? =
      some (histLine p.days_played record a b)) ∧
    (p.history.length < 100 →
      (p.add_history record a b).history =
        p.history ++ [histLine p.days_played record a b]) ∧
    (100 ≤ p.history.length →
      (p.add_history record a b).history =
        (p.history ++ [histLine p.days_played record a b]).tail) ∧
    (∀ (q : PlayerState) (cmds : List (String × Int × Int)),
      q.history = [] → cmds.length = 101 →
      (runHistory q cmds).history =
        (cmds.map (fun c => histLine q.days_played c.1 c.2.1 c.2.2)).tail) := by
  refine ⟨?_, ?_, ?_, ?_, ?_⟩
  · intro h
    unfold PlayerState.add_history
    simp only
    split_ifs with hc <;>
      simp only [List.length_tail, List.length_append, List.length_singleton,
        List.length_nil] at hc ⊢ <;> omega
  · unfold PlayerState.add_history
    simp only
    split_ifs with hc
    · cases hph : p.history with
      | nil =>
          rw [hph] at hc
          simp at hc
      | cons hd tl =>
          exact List.getLast?_concat _
    · exact List.getLast?_concat _
  · intro h
    unfold PlayerState.add_history
    simp only
    rw [if_neg (by simp only [List.length_append, List.length_singleton]; omega)]
  · intro h
    unfold PlayerState.add_history
    simp only
    rw [if_pos (by simp only [List.length_append, List.length_singleton]; omega)]
  · intro q cmds hq hlen
    have h := runHistory_history_eq cmds q (by rw [hq]; simp)
    rw [h, hq, hlen]
    simp [List.drop_one]

/-- Witness fixture: 101 identical history commands. -/
def cmds101 : List (String × Int × Int) := List.replicate 101 ("r", 1, 2)

theorem add_history_bounded_witness :
    ((PlayerState.new "w").add_history "r" 1 2).history.length ≤ 100 ∧
    (runHistory (PlayerState.new "w") cmds101).history =
      (cmds101.map (fun c => histLine 0 c.1 c.2.1 c.2.2)).tail := by
  constructor
  · exact (add_history_bounded (PlayerState.new "w") "r" 1 2).1
      (by simp [PlayerState.new])
  · have h := (add_history_bounded (PlayerState.new "w") "r" 1 2).2.2.2.2
      (PlayerState.new "w") cmds101 rfl (by simp [cmds101])
    simpa [PlayerState.new] using h

/-- C5: the presented (shuffled) option sequence of an event is always a
permutation of exactly the 3 authored options: right after
`new_shuffled` it permutes the authored `[A, B, C]` list (whose origin
indices are 0, 1, 2 and whose reward tuples are the authored ones), and
`reshuffle` preserves any such permutation relationship, for daily and
weekly events alike. -/
theorem shuffled_options_is_permutation :
    (∀ (id : Nat) (nm ds : String) (oa : Int × Int) (oad oas : String)
        (ob : Int × Int) (obd obs : String) (oc : Int × Int) (ocd ocs : String)
        (rs : List Nat),
      (DailyEvent.new_shuffled id nm ds oa oad oas ob obd obs oc ocd ocs
        rs).shuffled_options.Perm (authoredOptions oa oad oas ob obd obs oc ocd ocs)) ∧
    (∀ (e : DailyEvent) (l : List OptionInfo) (rs : List Nat),
      e.shuffled_options.Perm l → ((e.reshuffle rs).shuffled_options).Perm l) ∧
    (∀ (id : Nat) (nm ds : String) (oa : Int × Int) (oad oas : String)
        (ob : Int × Int) (obd obs : String) (oc : Int × Int) (ocd ocs : String)
        (rs : List Nat),
      (WeeklyEvent.new_shuffled id nm ds oa oad oas ob obd obs oc ocd ocs
        rs).shuffled_options.Perm (authoredOptions oa oad oas ob obd obs oc ocd ocs)) ∧
    (∀ (e : WeeklyEvent) (l : List OptionInfo) (rs : List Nat),
      e.shuffled_options.Perm l → ((e.reshuffle rs).shuffled_options).Perm l) ∧
    (∀ (oa : Int × Int) (oad oas : String) (ob : Int × Int) (obd obs : String)
        (oc : Int × Int) (ocd ocs : String),
      (authoredOptions oa oad oas ob obd obs oc ocd ocs).map
        OptionInfo.original_index = [0, 1, 2] ∧
      (authoredOptions oa oad oas ob obd obs oc ocd ocs).map
        OptionInfo.value = [oa, ob, oc]) := by
  refine ⟨?_, ?_, ?_, ?_, ?_⟩
  · intro id nm ds oa oad oas ob obd obs oc ocd ocs rs
    exact shuffleList_perm rs _
  · intro e l rs h
    exact (shuffleList_perm rs e.shuffled_options).trans h
  · intro id nm ds oa oad oas ob obd obs oc ocd ocs rs
    exact shuffleList_perm rs _
  · intro e l rs h
    exact (shuffleList_perm rs e.shuffled_options).trans h
  · intro oa oad oas ob obd obs oc ocd ocs
    exact ⟨rfl, rfl⟩

theorem shuffled_options_is_permutation_witness :
    (((DailyEvent.new_shuffled 0 "e" "d" (6, 4) "a" "sa" (2, 5) "b" "sb"
        (3, -3) "c" "sc" [2, 1]).reshuffle [1]).shuffled_options).Perm
      (authoredOptions (6, 4) "a" "sa" (2, 5) "b" "sb" (3, -3) "c" "sc") :=
  shuffled_options_is_permutation.2.1 _ _ [1]
    (shuffled_options_is_permutation.1 0 "e" "d" (6, 4) "a" "sa" (2, 5) "b" "sb"
      (3, -3) "c" "sc" [2, 1])

/-- Membership of `List.getD` at an in-range index. -/
theorem getD_mem {α : Type} (l : List α) (n : Nat) (d : α) (h : n < l.length) :
    l.getD n d ∈ l := by
  rw [List.getD_eq_getElem l d h]
  exact List.getElem_mem h

/-- Field-by-field description of `GameState.next_day`. -/
theorem next_day_spec (g : GameState) (o : DayOracle) :
    ((g.next_day o).current_day = g.current_day + 1) ∧
    ((g.next_day o).player = { g.player with days_played := g.player.days_played + 1 }) ∧
    ((g.next_day o).event_chosen_today = false) ∧
    ((g.next_day o).weekly_event_chosen_today = false) ∧
    ((g.next_day o).current_week =
      (if (g.current_day + 1) % 7 = 0 then g.current_week + 1 else g.current_week)) ∧
    ((g.next_day o).today_event =
      (g.daily_events.getD (o.dailyIdx % g.daily_events.length)
        g.today_event).reshuffle o.dailyShuffle) ∧
    ((g.next_day o).today_weekly_event =
      (if (g.current_day + 1) % 7 = 0 then
        (g.weekly_events.get? (o.weeklyIdx % g.weekly_events.length)).map
          (fun w => w.reshuffle o.weeklyShuffle)
      else none)) ∧
    ((g.next_day o).npc_interaction_message = "") ∧
    ((g.next_day o).npc_active_event = none) ∧
    ((g.next_day o).daily_events = g.daily_events) ∧
    ((g.next_day o).weekly_events = g.weekly_events) ∧
    ((g.next_day o).npc_master = g.npc_master) ∧
    ((g.next_day o).today_npcs =
      ((shuffleList o.npcShuffle g.npc_master).take
        (if min (shuffleList o.npcShuffle g.npc_master).length 3 = 0 then 0
         else 1 + o.npcTake % min (shuffleList o.npcShuffle g.npc_master).length 3)).map
        (fun npc => { npc with interacted := false })) := by
  unfold GameState.next_day GameState.refresh_today_npcs
  by_cases h7 : (g.current_day + 1) % 7 = 0
  · cases hw : g.weekly_events[o.weeklyIdx % g.weekly_events.length]? with
    | none => simp [h7, hw]
    | some w => simp [h7, hw]
  · simp [h7]

/-- C4: `next_day` increments the day counter and `days_played`, clears
both already-chosen guards, increments the week and draws+reshuffles a
weekly event exactly when the new day is divisible by 7 (clearing the
weekly slot otherwise), draws+reshuffles a daily event from the catalog,
and refreshes the NPC subset (≤ 3 NPCs from the master roster, all with
`interacted` reset, message and active prompt cleared). From day 6 /
week 1 it yields day 7, week 2, with a weekly event present; from day 7
it yields day 8 with the weekly slot empty. -/
theorem next_day_rotation (g : GameState) (o : DayOracle)
    (hde : g.daily_events ≠ []) (hwe : g.weekly_events ≠ []) :
    ((g.next_day o).current_day = g.current_day + 1) ∧
    ((g.next_day o).player.days_played = g.player.days_played + 1) ∧
    ((g.next_day o).event_chosen_today = false) ∧
    ((g.next_day o).weekly_event_chosen_today = false) ∧
    ((g.next_day o).current_week =
      (if (g.current_day + 1) % 7 = 0 then g.current_week + 1 else g.current_week)) ∧
    (∃ e ∈ g.daily_events, (g.next_day o).today_event = e.reshuffle o.dailyShuffle) ∧
    ((g.current_day + 1) % 7 = 0 →
      ∃ w ∈ g.weekly_events,
        (g.next_day o).today_weekly_event = some (w.reshuffle o.weeklyShuffle)) ∧
    ((g.current_day + 1) % 7 ≠ 0 → (g.next_day o).today_weekly_event = none) ∧
    ((g.next_day o).npc_interaction_message = "") ∧
    ((g.next_day o).npc_active_event = none) ∧
    ((g.next_day o).today_npcs.length ≤ 3) ∧
    (∀ n ∈ (g.next_day o).today_npcs,
      n.interacted = false ∧ ∃ m ∈ g.npc_master, n = { m with interacted := false }) ∧
    (g.current_day = 6 → g.current_week = 1 →
      (g.next_day o).current_day = 7 ∧ (g.next_day o).current_week = 2 ∧
      (g.next_day o).today_weekly_event.isSome = true) ∧
    (g.current_day = 7 →
      (g.next_day o).current_day = 8 ∧ (g.next_day o).today_weekly_event = none) := by
  obtain ⟨h1, h2, h3, h4, h5, h6, h7, h8, h9, _, _, _, h13⟩ := next_day_spec g o
  have hdlen : 0 < g.daily_events.length := List.length_pos.2 hde
  have hwlen : 0 < g.weekly_events.length := List.length_pos.2 hwe
  have hweekly : (g.current_day + 1) % 7 = 0 →
      ∃ w ∈ g.weekly_events,
        (g.next_day o).today_weekly_event = some (w.reshuffle o.weeklyShuffle) := by
    intro hmod
    rw [h7, if_pos hmod]
    have hidx : o.weeklyIdx % g.weekly_events.length < g.weekly_events.length :=
      Nat.mod_lt _ hwlen
    exact ⟨g.weekly_events.get ⟨_, hidx⟩,
      List.get_mem _ _ _,
      by rw [List.get?_eq_get hidx]; rfl⟩
  refine ⟨h1, by rw [h2], h3, h4, h5, ?_, hweekly, ?_, h8, h9, ?_, ?_, ?_, ?_⟩
  · refine ⟨g.daily_events.getD (o.dailyIdx % g.daily_events.length) g.today_event,
      getD_mem _ _ _ (Nat.mod_lt _ hdlen), h6⟩
  · intro hmod
    rw [h7, if_neg hmod]
  · rw [h13]
    set pool := shuffleList o.npcShuffle g.npc_master with hpool
    by_cases hz : min pool.length 3 = 0
    · simp [hz]
    · have : 1 + o.npcTake % min pool.length 3 ≤ 3 := by
        have := Nat.mod_lt o.npcTake (Nat.pos_of_ne_zero hz)
        omega
      calc ((pool.take (if min pool.length 3 = 0 then 0
              else 1 + o.npcTake % min pool.length 3)).map
              (fun npc => { npc with interacted := false })).length
          = (pool.take (if min pool.length 3 = 0 then 0
              else 1 + o.npcTake % min pool.length 3)).length := List.length_map _ _
        _ ≤ (if min pool.length 3 = 0 then 0 else 1 + o.npcTake % min pool.length 3) :=
            List.length_take_le _ _
        _ ≤ 3 := by rw [if_neg hz]; exact this
  · intro n hn
    rw [h13] at hn
    obtain ⟨m, hm, hmn⟩ := List.mem_map.1 hn
    have hmpool : m ∈ shuffleList o.npcShuffle g.npc_master :=
      List.mem_of_mem_take hm
    have hmmaster : m ∈ g.npc_master :=
      (shuffleList_perm o.npcShuffle g.npc_master).mem_iff.1 hmpool
    exact ⟨by rw [← hmn], m, hmmaster, hmn.symm⟩
  · intro hd6 hw1
    have hmod : (g.current_day + 1) % 7 = 0 := by rw [hd6]
    obtain ⟨w, _, hwsome⟩ := hweekly hmod
    refine ⟨by rw [h1, hd6], by rw [h5, if_pos hmod, hw1], by rw [hwsome]; rfl⟩
  · intro hd7
    have hmod : (g.current_day + 1) % 7 ≠ 0 := by rw [hd7]; decide
    refine ⟨by rw [h1, hd7], by rw [h7, if_neg hmod]⟩

/-- Concrete daily event used by witnesses. -/
def dailyEventW : DailyEvent :=
  { id := 0, name := "e", description := "d",
    option_a := (6, 4), option_a_desc := "a",
    option_b := (2, 5), option_b_desc := "b",
    option_c := (3, -3), option_c_desc := "c",
    shuffled_options := authoredOptions (6, 4) "a" "sa" (2, 5) "b" "sb" (3, -3) "c" "sc" }

/-- Concrete weekly event used by witnesses. -/
def weeklyEventW : WeeklyEvent :=
  { id := 0, name := "w", description := "d",
    option_a := (20, 15), option_a_desc := "a",
    option_b := (12, 6), option_b_desc := "b",
    option_c := (-8, -14), option_c_desc := "c",
    shuffled_options :=
      authoredOptions (20, 15) "a" "sa" (12, 6) "b" "sb" (-8, -14) "c" "sc" }

/-- Concrete NPC used by witnesses. -/
def npcW : NpcEncounter :=
  { name := "n", description := "d", ai_model := "m",
    prompt_templates := ["p1", "p2"],
    accept_option := { summary := "as", detail := "ad", reward := (2, -4) },
    reject_option := { summary := "rs", detail := "rd", reward := (0, 2) },
    interacted := false }

/-- Concrete game state on day 6 of week 1. -/
def gameW : GameState :=
  { player := PlayerState.new "w", current_day := 6, current_week := 1,
    daily_events := [dailyEventW], weekly_events := [weeklyEventW],
    today_event := dailyEventW, today_weekly_event := none,
    event_chosen_today := true, weekly_event_chosen_today := false,
    npc_master := [npcW], today_npcs := [npcW],
    npc_interaction_message := "", npc_active_event := none }

/-- Concrete day oracle. -/
def oracleW : DayOracle :=
  { dailyIdx := 0, dailyShuffle := [1, 0], weeklyIdx := 0, weeklyShuffle := [],
    npcShuffle := [], npcTake := 0 }

theorem next_day_rotation_witness :
    (gameW.next_day oracleW).current_day = 7 ∧
    (gameW.next_day oracleW).current_week = 2 ∧
    (gameW.next_day oracleW).today_weekly_event.isSome = true := by
  have h := next_day_rotation gameW oracleW
    (by simp [gameW]) (by simp [gameW])
  have hs := h.2.2.2.2.2.2.2.2.2.2.2.2.1 rfl rfl
  exact hs

/-- C7: within a day each NPC grants its reward at most once. Probing never
changes the player (skill, stress, experience, history included); probing
an NPC whose `interacted` flag is set returns the "already handled"
message and leaves the NPC list untouched; resolving against an
already-`interacted` NPC changes neither player nor NPC list; and the
reward is applied exactly in the resolve call on a non-`interacted` NPC,
which marks the flag in the same call. -/
theorem npc_reward_at_most_once_per_day (g : GameState) :
    (∀ (i rd : Nat), (g.trigger_npc_event i rd).1.player = g.player) ∧
    (∀ (i rd : Nat) (npc : NpcEncounter),
      g.player.is_alive = true → g.today_npcs.get? i = some npc →
      npc.interacted = true →
      (g.trigger_npc_event i rd).2 = some (npc.name ++ " 今天的请求已经处理完。") ∧
      (g.trigger_npc_event i rd).1.today_npcs = g.today_npcs) ∧
    (∀ (d : NpcDecision) (a : NpcActiveEvent) (npc : NpcEncounter),
      g.player.is_alive = true → g.npc_active_event = some a →
      g.today_npcs.get? a.npc_index = some npc → npc.interacted = true →
      (g.resolve_active_npc_event d).1.player = g.player ∧
      (g.resolve_active_npc_event d).1.today_npcs = g.today_npcs) ∧
    (∀ (d : NpcDecision) (a : NpcActiveEvent) (npc : NpcEncounter),
      g.player.is_alive = true → g.npc_active_event = some a →
      g.today_npcs.get? a.npc_index = some npc → npc.interacted = false →
      (g.resolve_active_npc_event d).1.player =
        (g.player.gain_reward (npcChosenOption npc d).reward.1
            (npcChosenOption npc d).reward.2).add_history
          ("【NPC】" ++ npc.name ++ " - " ++ (npcChosenOption npc d).detail ++
            " (" ++ npcChoiceLabel d ++ ")")
          (npcChosenOption npc d).reward.1 (npcChosenOption npc d).reward.2 ∧
      (g.resolve_active_npc_event d).1.today_npcs.get? a.npc_index =
        some { npc with interacted := true }) := by
  refine ⟨?_, ?_, ?_, ?_⟩
  · intro i rd
    unfold GameState.trigger_npc_event
    by_cases halive : g.player.is_alive
    · rw [if_neg (by simp [halive])]
      cases hn : g.today_npcs.get? i with
      | none => rfl
      | some npc =>
          simp only
          split_ifs <;> rfl
    · rw [if_pos (by simp [halive])]
  · intro i rd npc halive hn hint
    unfold GameState.trigger_npc_event
    rw [if_neg (by simp [halive]), hn]
    simp only
    rw [if_pos hint]
    exact ⟨rfl, rfl⟩
  · intro d a npc halive ha hn hint
    unfold GameState.resolve_active_npc_event
    rw [if_neg (by simp [halive]), ha]
    simp only
    rw [hn]
    simp only
    rw [if_pos hint]
    exact ⟨rfl, rfl⟩
  · intro d a npc halive ha hn hint
    unfold GameState.resolve_active_npc_event
    rw [if_neg (by simp [halive]), ha]
    simp only
    rw [hn]
    simp only
    rw [if_neg (by simp [hint])]
    refine ⟨rfl, ?_⟩
    simp only
    have hlt : a.npc_index < g.today_npcs.length := by
      rcases List.get?_eq_some.1 hn with ⟨hh, _⟩
      exact hh
    rw [List.get?_eq_getElem?, List.getElem?_set_eq_of_lt _ (by simpa using hlt)]

/-- Concrete game with an already-interacted NPC, used by the C7 witness. -/
def gameNpcDone : GameState :=
  { gameW with
    today_npcs := [{ npcW with interacted := true }],
    npc_active_event := some { npc_index := 0, prompt := "p1" } }

theorem npc_reward_at_most_once_per_day_witness :
    ((gameNpcDone.trigger_npc_event 0 0).1.player = gameNpcDone.player) ∧
    ((gameNpcDone.trigger_npc_event 0 0).2 =
      some ("n" ++ " 今天的请求已经处理完。")) ∧
    ((gameNpcDone.resolve_active_npc_event .Accept).1.player = gameNpcDone.player) := by
  have h := npc_reward_at_most_once_per_day gameNpcDone
  refine ⟨h.1 0 0, ?_, ?_⟩
  · exact (h.2.1 0 0 { npcW with interacted := true } rfl rfl rfl).1
  · exact (h.2.2.1 .Accept { npc_index := 0, prompt := "p1" }
      { npcW with interacted := true } rfl rfl rfl rfl).1

/-- Concrete game on day 1 with today's choice still open (C2 fixtures). -/
def gameChoice : GameState :=
  { gameW with current_day := 1, event_chosen_today := false }

/-- Concrete app in the daily-event phase (C2 fixtures). -/
def appChoice : GameApp :=
  { phase := .EventDisplay, game_state := some gameChoice,
    player_name := "w", result_message := "" }

/-- C2 counterexample: display position 0 is NOT ignored. The source's
`choice.saturating_sub(1)` maps 0 to index 0, so `apply_choice 0` applies
the first presented option: the daily guard flips to `true` and the
player's skill changes. -/
theorem apply_choice_position_zero_counterexample :
    (appChoice.apply_choice 0).game_state.map GameState.event_chosen_today =
      some true ∧
    appChoice.game_state.map GameState.event_chosen_today = some false ∧
    (appChoice.apply_choice 0).game_state.map (fun g => g.player.skills) = some 6 ∧
    appChoice.game_state.map (fun g => g.player.skills) = some 0 := by
  refine ⟨?_, rfl, ?_, rfl⟩ <;> rfl

/-- C2 (amended): a daily or weekly choice command whose display position
is ≥ 4 is ignored — no player field, no guard flag, no history entry, no
event or NPC state changes, no phase change. Display position 0, however,
is not ignored: the saturating subtraction maps it to index 0, making it
behave exactly like position 1. -/
theorem apply_choice_out_of_range_noop (app : GameApp) (game : GameState)
    (choice : Nat) (hg : app.game_state = some game)
    (hde : game.today_event.shuffled_options.length = 3)
    (hwe : ∀ w, game.today_weekly_event = some w → w.shuffled_options.length = 3)
    (h4 : 4 ≤ choice) :
    ((app.apply_choice choice).game_state.map (fun g => g.player) =
      some game.player) ∧
    ((app.apply_choice choice).game_state.map GameState.event_chosen_today =
      some game.event_chosen_today) ∧
    ((app.apply_choice choice).game_state.map GameState.weekly_event_chosen_today =
      some game.weekly_event_chosen_today) ∧
    ((app.apply_choice choice).game_state.map GameState.today_event =
      some game.today_event) ∧
    ((app.apply_choice choice).game_state.map GameState.today_weekly_event =
      some game.today_weekly_event) ∧
    ((app.apply_choice choice).game_state.map GameState.today_npcs =
      some game.today_npcs) ∧
    ((app.apply_choice choice).phase = app.phase) ∧
    (app.apply_choice 0 = app.apply_choice 1) := by
  have hdnone : game.today_event.shuffled_options.get? (choice - 1) = none := by
    rw [List.get?_eq_none]
    omega
  have happly : app.apply_choice choice = app ∨
      app.apply_choice choice =
        { app with result_message := "今天已经选择过了！\n按 \"进入下一天\" 继续" } ∨
      app.apply_choice choice =
        { app with result_message := "本周事件已完成！\n点击 \"进入下一天\" 继续" } := by
    unfold GameApp.apply_choice
    rw [hg]
    cases hph : app.phase with
    | EventDisplay =>
        simp only
        by_cases hch : game.event_chosen_today
        · rw [if_pos hch]
          right; left; rfl
        · rw [if_neg hch, hdnone]
          left; rfl
    | WeeklyEventDisplay =>
        simp only
        by_cases hch : game.weekly_event_chosen_today
        · rw [if_pos hch]
          right; right; rfl
        · rw [if_neg hch]
          cases hw : game.today_weekly_event with
          | none => left; rfl
          | some w =>
              have hwnone : w.shuffled_options.get? (choice - 1) = none := by
                rw [List.get?_eq_none, hwe w hw]
                omega
              simp only
              rw [hwnone]
              left; rfl
    | Start => left; rfl
    | PromotionConfirm => left; rfl
    | GameOver => left; rfl
  have hsame : (app.apply_choice choice).game_state = some game ∧
      (app.apply_choice choice).phase = app.phase := by
    rcases happly with h | h | h <;> rw [h] <;> exact ⟨hg, rfl⟩
  refine ⟨?_, ?_, ?_, ?_, ?_, ?_, hsame.2, ?_⟩
  · rw [hsame.1]; rfl
  · rw [hsame.1]; rfl
  · rw [hsame.1]; rfl
  · rw [hsame.1]; rfl
  · rw [hsame.1]; rfl
  · rw [hsame.1]; rfl
  · have : (0 : Nat) - 1 = 1 - 1 := rfl
    unfold GameApp.apply_choice
    rfl

theorem apply_choice_out_of_range_noop_witness :
    ((appChoice.apply_choice 9).game_state.map (fun g => g.player) =
      some gameChoice.player) ∧
    ((appChoice.apply_choice 9).game_state.map GameState.event_chosen_today =
      some false) ∧
    (appChoice.apply_choice 0 = appChoice.apply_choice 1) := by
  have h := apply_choice_out_of_range_noop appChoice gameChoice 9 rfl
    (by rfl)
    (by intro w hw; simp [gameChoice, gameW] at hw)
    (by norm_num)
  exact ⟨h.1, h.2.1, h.2.2.2.2.2.2.2⟩

/-- Branch facts of `attempt_promotion` on a failing roll. -/
theorem attempt_promotion_failure_parts (p : PlayerState) (r : ℚ)
    (h : r < promoFailureRate p.promotion_attempts) :
    (p.attempt_promotion r).2.1 = false ∧
    (p.attempt_promotion r).1 =
      { p with skills := p.skills - Int.tdiv p.skills 2,
               promotion_attempts := p.promotion_attempts + 1 } := by
  unfold PlayerState.attempt_promotion
  rw [if_pos h]
  exact ⟨rfl, rfl⟩

/-- Branch facts of `attempt_promotion` on a successful roll. -/
theorem attempt_promotion_success_parts (p : PlayerState) (r : ℚ)
    (h : ¬ r < promoFailureRate p.promotion_attempts) :
    (p.attempt_promotion r).2.1 = true ∧
    (p.attempt_promotion r).1 =
      { p with realm_level := p.realm_level + 1, promotion_attempts := 0 } := by
  unfold PlayerState.attempt_promotion
  rw [if_neg h]
  exact ⟨rfl, rfl⟩

/-- C10: accepting a pending promotion advances the day only when the roll
succeeds: on success `promote_yes` immediately runs `next_day` (day
counter, `days_played`, guards, NPC prompt, and a freshly drawn daily
event all rotate in the same command) and returns to the event phase; on
failure nothing about the day rotates (its advance needs the separate
next-day command); declining via `promote_no` runs `next_day`
unconditionally without any promotion attempt (promotion counters, realm
level and skills untouched). -/
theorem promotion_decision_day_advance (app : GameApp) (game : GameState)
    (r : ℚ) (o : DayOracle) (hg : app.game_state = some game)
    (hde : game.daily_events ≠ []) :
    (¬ r < promoFailureRate game.player.promotion_attempts →
      ((app.promote_yes r o).phase = GamePhase.EventDisplay) ∧
      ((app.promote_yes r o).game_state.map GameState.current_day =
        some (game.current_day + 1)) ∧
      ((app.promote_yes r o).game_state.map (fun g => g.player.days_played) =
        some (game.player.days_played + 1)) ∧
      ((app.promote_yes r o).game_state.map GameState.event_chosen_today =
        some false) ∧
      ((app.promote_yes r o).game_state.map GameState.weekly_event_chosen_today =
        some false) ∧
      ((app.promote_yes r o).game_state.map GameState.npc_active_event =
        some none) ∧
      (∃ e ∈ game.daily_events,
        (app.promote_yes r o).game_state.map GameState.today_event =
          some (e.reshuffle o.dailyShuffle))) ∧
    (r < promoFailureRate game.player.promotion_attempts →
      ((app.promote_yes r o).phase = app.phase) ∧
      ((app.promote_yes r o).game_state.map GameState.current_day =
        some game.current_day) ∧
      ((app.promote_yes r o).game_state.map (fun g => g.player.days_played) =
        some game.player.days_played) ∧
      ((app.promote_yes r o).game_state.map GameState.today_event =
        some game.today_event) ∧
      ((app.promote_yes r o).game_state.map GameState.event_chosen_today =
        some game.event_chosen_today) ∧
      ((app.promote_yes r o).game_state.map GameState.today_npcs =
        some game.today_npcs)) ∧
    (((app.promote_no o).game_state = some (game.next_day o)) ∧
      ((app.promote_no o).phase = GamePhase.EventDisplay) ∧
      ((app.promote_no o).game_state.map GameState.current_day =
        some (game.current_day + 1)) ∧
      ((app.promote_no o).game_state.map (fun g => g.player.promotion_attempts) =
        some game.player.promotion_attempts) ∧
      ((app.promote_no o).game_state.map (fun g => g.player.realm_level) =
        some game.player.realm_level) ∧
      ((app.promote_no o).game_state.map (fun g => g.player.skills) =
        some game.player.skills)) := by
  have hdlen : 0 < game.daily_events.length := List.length_pos.2 hde
  refine ⟨?_, ?_, ?_⟩
  · intro hr
    have hs := attempt_promotion_success_parts game.player r hr
    have heq : app.promote_yes r o =
        { app with
          game_state :=
            some (({ game with player := (game.player.attempt_promotion r).1 }).next_day o),
          phase := .EventDisplay,
          result_message := (game.player.attempt_promotion r).2.2 } := by
      unfold GameApp.promote_yes
      rw [hg]
      simp only [hs.1, if_true]
    obtain ⟨s1, s2, s3, s4, _, s6, _, _, s9, _, _, _, _⟩ :=
      next_day_spec { game with player := (game.player.attempt_promotion r).1 } o
    rw [heq]
    refine ⟨rfl, ?_, ?_, ?_, ?_, ?_, ?_⟩
    · simp only [Option.map_some']
      rw [s1]
    · simp only [Option.map_some']
      rw [s2, hs.2]
    · simp only [Option.map_some']
      rw [s3]
    · simp only [Option.map_some']
      rw [s4]
    · simp only [Option.map_some']
      rw [s9]
    · refine ⟨game.daily_events.getD (o.dailyIdx % game.daily_events.length)
        { game with player := (game.player.attempt_promotion r).1 }.today_event,
        getD_mem _ _ _ (Nat.mod_lt _ hdlen), ?_⟩
      simp only [Option.map_some']
      rw [s6]
  · intro hr
    have hf := attempt_promotion_failure_parts game.player r hr
    have heq : app.promote_yes r o =
        { app with
          game_state := some { game with player := (game.player.attempt_promotion r).1 },
          result_message :=
            (game.player.attempt_promotion r).2.2 ++ "\n\n点击 \"进入下一天\" 继续努力" } := by
      unfold GameApp.promote_yes
      rw [hg]
      simp only [hf.1, Bool.false_eq_true, if_false]
    rw [heq]
    refine ⟨rfl, rfl, ?_, rfl, rfl, rfl⟩
    simp only [Option.map_some']
    rw [hf.2]
  · have heq : app.promote_no o =
        { app with game_state := some (game.next_day o),
                   phase := .EventDisplay, result_message := "" } := by
      unfold GameApp.promote_no
      rw [hg]
    obtain ⟨n1, n2, _⟩ := next_day_spec game o
    rw [heq]
    refine ⟨rfl, rfl, ?_, ?_, ?_, ?_⟩
    · simp only [Option.map_some']
      rw [n1]
    · simp only [Option.map_some']
      rw [n2]
    · simp only [Option.map_some']
      rw [n2]
    · simp only [Option.map_some']
      rw [n2]

/-- Concrete game ready for a promotion decision (C10 witness). -/
def gamePromo : GameState := { gameW with player := pPromo }

/-- Concrete app in the promotion-confirm phase (C10 witness). -/
def appPromo : GameApp :=
  { phase := .PromotionConfirm, game_state := some gamePromo,
    player_name := "w", result_message := "" }

theorem promotion_decision_day_advance_witness :
    ((appPromo.promote_yes (1 / 2) oracleW).phase = GamePhase.EventDisplay) ∧
    ((appPromo.promote_yes (1 / 2) oracleW).game_state.map GameState.current_day =
      some 7) ∧
    ((appPromo.promote_yes (1 / 100) oracleW).game_state.map GameState.current_day =
      some 6) ∧
    ((appPromo.promote_no oracleW).game_state.map GameState.current_day = some 7) := by
  have h := promotion_decision_day_advance appPromo gamePromo (1 / 2) oracleW rfl
    (by simp [gamePromo, gameW])
  have h2 := promotion_decision_day_advance appPromo gamePromo (1 / 100) oracleW rfl
    (by simp [gamePromo, gameW])
  have hs := h.1 (by
    unfold gamePromo gameW pPromo PlayerState.new promoFailureRate
    norm_num)
  have hf := h2.2.1 (by
    unfold gamePromo gameW pPromo PlayerState.new promoFailureRate
    norm_num)
  refine ⟨hs.1, ?_, ?_, ?_⟩
  · rw [hs.2.1]; rfl
  · rw [hf.2.1]; rfl
  · rw [h.2.2.2.2.1]; rfl

end JbnDaily
